import Mathlib

/-!
Shallow embedding of the `sanitize` package (sanitize.go) from the
repository artyom/sanitize, together with theorems checking the claims of
its specification.

The package transcodes a JSON token stream (produced by the external
`encoding/json` tokenizer, `dec.Token()` with `dec.UseNumber()`), masking
string values whose object key matches a policy.  The tokenizer is an
external collaborator, so the embedding works on its interface: the input
is the sequence of tokens it yields, ending either in EOF or in a decode
error (`JInput.terr`).  Everything below `stepM` / `stepS` / `stepF` is a
line-by-line transcription of the three loops in sanitize.go.
-/

namespace Sanitize

/-- Kind of a JSON container: `'\x7b'` (object) or `'['` (array), as pushed
on the `ds` stack of the Go code. -/
inductive CKind
  | obj
  | arr
deriving DecidableEq, BEq, Repr

/-- One result of `dec.Token()` with `dec.UseNumber()`: a decoded string, a
bool, a `json.Number` (raw text), `nil`, or a `json.Delim`.  Open and close
delimiters carry their container kind. -/
inductive Token
  | str (s : String)
  | bool (b : Bool)
  | num (raw : String)
  | null
  | opn (k : CKind)
  | cls (k : CKind)
deriving DecidableEq, Repr

/-- Is this token a closing delimiter (`'\x7d'` or `']'`)? -/
def isClose : Token → Bool
  | .cls _ => true
  | _ => false

/-- `dec.More()` at the point where `rest` is the list of tokens still to
come: the decoder peeks at the next non-space byte and reports it exists and
is not `']'` or `'\x7d'`; at token level, the next token exists and is not a
closing delimiter. -/
def more : List Token → Bool
  | [] => false
  | t :: _ => !isClose t

/-- The `comma` constant of sanitize.go. -/
def comma : Char := ','

/-- The `colon` constant of sanitize.go. -/
def colon : Char := ':'

/-- `Mask` replaces sensitive fields (sanitize.go). -/
def Mask : String := "********"

/-- The zero `byte` value of the Go `prevDelim` variable. -/
def nul : Char := '\x00'

/-- Local state of one transcoding call in `Stream`/`Message`: the stack of
separators `ds`, the token counter `cnt`, the `sanitize` flag and the
`prevDelim` byte.  The top of the Go slice `ds[len(ds)-1]` is the head of
the list here. -/
structure St where
  ds : List CKind
  cnt : Nat
  sanitize : Bool
  prevDelim : Char
deriving DecidableEq, Repr

/-- Initial state: `var ds []rune; var cnt int; var sanitize bool; var
prevDelim byte`. -/
def St.init : St :=
  { ds := [], cnt := 0, sanitize := false, prevDelim := nul }

/-- The key-position test of sanitize.go:
`cnt%2 != 0 && len(ds) > 0 && ds[len(ds)-1] == '\x7b'` (the same condition
appears verbatim in `Stream`, `Message` and `MessageFunc`). -/
def isKeyPos (st : St) : Bool :=
  st.cnt % 2 != 0 && !st.ds.isEmpty && st.ds.head? == some CKind.obj

/-- The matching test of `Stream`/`Message`:
`_, ok := fset[v]; ok || (re != nil && re.MatchString(v))`.  The regular
expression is modelled at its interface as a predicate on strings. -/
def keyMatches (fset : List String) (re : Option (String → Bool)) (v : String) : Bool :=
  fset.contains v || (match re with | some p => p v | none => false)

/-- The `lowerhex` digit table of Go's strconv package. -/
def lowerhex : List Char := "0123456789abcdef".data

/-- Nibble `n` as a lowercase hex digit. -/
def hexDigitAt (n : Nat) : Char := lowerhex.getD n '0'

/-- Two lowercase hex digits of a byte value (strconv's `\x` escape form). -/
def hex2 (n : Nat) : String :=
  String.mk [hexDigitAt (n / 16 % 16), hexDigitAt (n % 16)]

/-- Four lowercase hex digits (strconv's `\u` escape form). -/
def hex4 (n : Nat) : String :=
  String.mk [hexDigitAt (n / 4096 % 16), hexDigitAt (n / 256 % 16),
    hexDigitAt (n / 16 % 16), hexDigitAt (n % 16)]

/-- Eight lowercase hex digits (strconv's `\U` escape form). -/
def hex8 (n : Nat) : String :=
  String.mk [hexDigitAt (n / 268435456 % 16), hexDigitAt (n / 16777216 % 16),
    hexDigitAt (n / 1048576 % 16), hexDigitAt (n / 65536 % 16),
    hexDigitAt (n / 4096 % 16), hexDigitAt (n / 256 % 16),
    hexDigitAt (n / 16 % 16), hexDigitAt (n % 16)]

/-- `strconv.IsPrint`, modelled exactly on the ASCII range (a rune in
`0x20..0x7e` is printable, other ASCII runes are not); runes at and above
`0x80` are treated as printable (Go consults Unicode category tables there;
every string handled by the claims is ASCII, where this definition agrees
with Go byte for byte). -/
def strconvIsPrint (c : Char) : Bool :=
  (0x20 ≤ c.toNat && c.toNat ≤ 0x7e) || 0x80 ≤ c.toNat

/-- One rune of `strconv.Quote`'s body (`appendEscapedRune` with
`ASCIIonly = false`, `graphicOnly = false`): the quote and the backslash
are always backslashed; printable runes pass through; the seven named Go
escapes come next; remaining control bytes become `\x`, other runes below
`0x10000` become `\u`, and the rest `\U`.  Lean `Char` is always a valid
rune, so the `!utf8.ValidRune` branch is unreachable. -/
def quoteRune (c : Char) : String :=
  if c = '"' || c = '\\' then String.mk ['\\', c]
  else if strconvIsPrint c then String.mk [c]
  else if c = '\x07' then "\\a"
  else if c = '\x08' then "\\b"
  else if c = '\x0c' then "\\f"
  else if c = '\n' then "\\n"
  else if c = '\r' then "\\r"
  else if c = '\t' then "\\t"
  else if c = '\x0b' then "\\v"
  else if c.toNat < 0x20 || c.toNat == 0x7f then "\\x" ++ hex2 c.toNat
  else if c.toNat < 0x10000 then "\\u" ++ hex4 c.toNat
  else "\\U" ++ hex8 c.toNat

/-- `strconv.Quote` / `strconv.AppendQuote(dst, v)` as used by all three
transcoders: a double quote, each rune escaped, a double quote. -/
def goQuote (s : String) : String :=
  "\"" ++ String.join (s.data.map quoteRune) ++ "\""

/-- Text of an opening delimiter. -/
def opener : CKind → String
  | .obj => "\x7b"
  | .arr => "["

/-- Text of a closing delimiter. -/
def closer : CKind → String
  | .obj => "\x7d"
  | .arr => "]"

/-- The two-byte separator `dst = append(dst, delim, ' ')` /
`bw.Write([]byte(delim, ' '))`. -/
def sepStr (delim : Char) : String := String.mk [delim, ' ']

/-- The code after the `switch` in each loop:
`cnt++`, then, when `dec.More()` and the token is not a delimiter or is a
closing delimiter (`sep`), `prevDelim = delim` and the separator plus one
space is written. -/
def finishTok (st : St) (txt : String) (delim : Char) (sep : Bool) (m : Bool) :
    St × String :=
  let st1 : St := { st with cnt := st.cnt + 1 }
  if m && sep then ({ st1 with prevDelim := delim }, txt ++ sepStr delim)
  else (st1, txt)

/-- One iteration of the token loop of `Message` (sanitize.go).  In the
string case, first `if sanitize && prevDelim == ':'` substitutes `Mask` and
clears the flag; then the key-position test sets `delim = colon` and, when
the (possibly substituted) string is in `fset` or matches `re`, sets
`sanitize = true`; the string is re-quoted with `strconv.AppendQuote`.
Bools are written with `strconv.AppendBool`, numbers as their raw text,
`nil` as `null`.  Delimiters push/pop `ds` (the pop is a no-op on an empty
stack, as in the guarded Go pop), reset `cnt` and `prevDelim`, and write
their literal character. -/
def stepM (fset : List String) (re : Option (String → Bool)) (st : St)
    (t : Token) (m : Bool) : St × String :=
  match t with
  | .str v0 =>
    let mask := st.sanitize && st.prevDelim == colon
    let v := if mask then Mask else v0
    let san := if mask then false else st.sanitize
    let k := isKeyPos st
    let delim := if k then colon else comma
    let san := if k && keyMatches fset re v then true else san
    finishTok { st with sanitize := san } (goQuote v) delim true m
  | .bool b => finishTok st (if b then "true" else "false") comma true m
  | .num raw => finishTok st raw comma true m
  | .null => finishTok st "null" comma true m
  | .opn c =>
    finishTok { st with ds := c :: st.ds, cnt := 0, prevDelim := nul }
      (opener c) comma false m
  | .cls c =>
    finishTok { st with ds := st.ds.tail, cnt := 0, prevDelim := nul }
      (closer c) comma true m

/-- The token loop of `Message`, returning the final state and the bytes
appended to `dst`. -/
def runM (fset : List String) (re : Option (String → Bool)) :
    St → List Token → St × String
  | st, [] => (st, "")
  | st, t :: rest =>
    let p := stepM fset re st t (more rest)
    let q := runM fset re p.1 rest
    (q.1, p.2 ++ q.2)

/-- The interface of the external tokenizer for one call: the tokens it
yields in order, and whether it ends in a decode error (`terr = true`)
instead of EOF. -/
structure JInput where
  toks : List Token
  terr : Bool
deriving DecidableEq, Repr

/-- The error classes a call can return: the `errInvalidArguents`
configuration error, or a tokenizer/decode error. -/
inductive JErr
  | config
  | decode
deriving DecidableEq, Repr

/-- `Message(dst, src, fset, re)`: the configuration check
`re == nil && len(fset) == 0` runs before any decoding; on a decode error
the function returns `nil, err`; on EOF it returns the built buffer.  The
`dst` scratch argument is truncated on entry, so the result does not depend
on it and it is omitted here. -/
def Message (src : JInput) (fset : List String) (re : Option (String → Bool)) :
    Option String × Option JErr :=
  if re.isNone && fset.isEmpty then (none, some JErr.config)
  else
    let r := runM fset re St.init src.toks
    if src.terr then (none, some JErr.decode) else (some r.2, none)

/-- One iteration of the token loop of `Stream` (sanitize.go); a separate
transcription of the `Stream` body, whose string case writes
`bw.Write(strconv.AppendQuote(tmp[:0], v))`, whose bool case writes
`"true"`/`"false"` with `bw.WriteString`, and whose delimiter case writes
the rune with `bw.WriteRune`. -/
def stepS (fset : List String) (re : Option (String → Bool)) (st : St)
    (t : Token) (m : Bool) : St × String :=
  match t with
  | .str v0 =>
    let mask := st.sanitize && st.prevDelim == colon
    let v := if mask then Mask else v0
    let san := if mask then false else st.sanitize
    let k := isKeyPos st
    let delim := if k then colon else comma
    let san := if k && keyMatches fset re v then true else san
    finishTok { st with sanitize := san } (goQuote v) delim true m
  | .bool b => finishTok st (if b then "true" else "false") comma true m
  | .num raw => finishTok st raw comma true m
  | .null => finishTok st "null" comma true m
  | .opn c =>
    finishTok { st with ds := c :: st.ds, cnt := 0, prevDelim := nul }
      (opener c) comma false m
  | .cls c =>
    finishTok { st with ds := st.ds.tail, cnt := 0, prevDelim := nul }
      (closer c) comma true m

/-- The token loop of `Stream`, returning the final state and the bytes
written to the buffered writer. -/
def runS (fset : List String) (re : Option (String → Bool)) :
    St → List Token → St × String
  | st, [] => (st, "")
  | st, t :: rest =>
    let p := stepS fset re st t (more rest)
    let q := runS fset re p.1 rest
    (q.1, p.2 ++ q.2)

/-- `Stream(w, r, fset, re)`: first component is the byte content of the
sink `w` after the call (the deferred `bw.Flush()` runs on every exit path,
so on a decode error the bytes produced so far have been written); second
component is the returned error. -/
def Stream (src : JInput) (fset : List String) (re : Option (String → Bool)) :
    String × Option JErr :=
  if re.isNone && fset.isEmpty then ("", some JErr.config)
  else
    let r := runS fset re St.init src.toks
    (r.2, if src.terr then some JErr.decode else none)

/-- State of `MessageFunc`: the shared fields plus the `key` holder for the
most recent object key. -/
structure FSt where
  ds : List CKind
  cnt : Nat
  sanitize : Bool
  prevDelim : Char
  key : String
deriving DecidableEq, Repr

/-- Initial `MessageFunc` state. -/
def FSt.init : FSt :=
  { ds := [], cnt := 0, sanitize := false, prevDelim := nul, key := "" }

/-- Key-position test inside `MessageFunc` (same Go condition). -/
def isKeyPosF (st : FSt) : Bool :=
  st.cnt % 2 != 0 && !st.ds.isEmpty && st.ds.head? == some CKind.obj

/-- The post-`switch` code of `MessageFunc` (identical to the other two
loops). -/
def finishTokF (st : FSt) (txt : String) (delim : Char) (sep : Bool) (m : Bool) :
    FSt × String :=
  let st1 : FSt := { st with cnt := st.cnt + 1 }
  if m && sep then ({ st1 with prevDelim := delim }, txt ++ sepStr delim)
  else (st1, txt)

/-- One iteration of the token loop of `MessageFunc` (sanitize.go): when
`sanitize && prevDelim == ':'`, the callback `fn(key, v)` is consulted and
its result substituted when it returns true; in key position `delim`,
`key` and `sanitize` are set unconditionally. -/
def stepF (fn : String → String → String × Bool) (st : FSt) (t : Token) (m : Bool) :
    FSt × String :=
  match t with
  | .str v0 =>
    let mask := st.sanitize && st.prevDelim == colon
    let v := if mask then (let p := fn st.key v0; if p.2 then p.1 else v0) else v0
    let san := if mask then false else st.sanitize
    let k := isKeyPosF st
    let delim := if k then colon else comma
    let san := if k then true else san
    let key := if k then v else st.key
    finishTokF { st with sanitize := san, key := key } (goQuote v) delim true m
  | .bool b => finishTokF st (if b then "true" else "false") comma true m
  | .num raw => finishTokF st raw comma true m
  | .null => finishTokF st "null" comma true m
  | .opn c =>
    finishTokF { st with ds := c :: st.ds, cnt := 0, prevDelim := nul }
      (opener c) comma false m
  | .cls c =>
    finishTokF { st with ds := st.ds.tail, cnt := 0, prevDelim := nul }
      (closer c) comma true m

/-- The token loop of `MessageFunc`. -/
def runF (fn : String → String → String × Bool) :
    FSt → List Token → FSt × String
  | st, [] => (st, "")
  | st, t :: rest =>
    let p := stepF fn st t (more rest)
    let q := runF fn p.1 rest
    (q.1, p.2 ++ q.2)

/-- `MessageFunc(dst, src, fn)`: nil-callback check first, then the loop;
`nil, err` on a decode error, the built buffer on EOF. -/
def MessageFunc (src : JInput) (fn : Option (String → String → String × Bool)) :
    Option String × Option JErr :=
  match fn with
  | none => (none, some JErr.config)
  | some f =>
    let r := runF f FSt.init src.toks
    if src.terr then (none, some JErr.decode) else (some r.2, none)

/-!
A JSON syntactic-validity checker.  Modelled from the spec: the JSON
grammar enforced by the external tokenizer collaborator (`encoding/json`,
`json.Valid`) is not part of this repository's sources, so it is modelled
here from the JSON grammar the spec appeals to ("the output is
syntactically valid JSON"): one value, surrounded by optional whitespace,
where a string may contain only unescaped characters at and above `0x20`
(other than the quote and the backslash) and the escapes
`\" \\ \/ \b \f \n \r \t \uXXXX`.  The recursive functions take a fuel
argument so that they are structurally recursive and kernel-evaluable. -/

/-- Skip JSON whitespace (space, tab, newline, carriage return). -/
def jSkipWs : List Char → List Char
  | [] => []
  | c :: cs => if c = ' ' || c = '\t' || c = '\n' || c = '\r' then jSkipWs cs else c :: cs

/-- Is this a hexadecimal digit? -/
def hexDig (c : Char) : Bool :=
  ('0' ≤ c && c ≤ '9') || ('a' ≤ c && c ≤ 'f') || ('A' ≤ c && c ≤ 'F')

/-- Parse the body of a JSON string after the opening quote, returning the
rest after the closing quote.  Only the JSON escapes are accepted. -/
def jStr : Nat → List Char → Option (List Char)
  | 0, _ => none
  | _ + 1, [] => none
  | n + 1, c :: cs =>
    if c = '"' then some cs
    else if c = '\\' then
      match cs with
      | [] => none
      | e :: cs2 =>
        if e = '"' || e = '\\' || e = '/' || e = 'b' || e = 'f' ||
            e = 'n' || e = 'r' || e = 't' then jStr n cs2
        else if e = 'u' then
          match cs2 with
          | h1 :: h2 :: h3 :: h4 :: cs3 =>
            if hexDig h1 && hexDig h2 && hexDig h3 && hexDig h4 then jStr n cs3
            else none
          | _ => none
        else none
    else if 0x20 ≤ c.toNat then jStr n cs else none

/-- Consume zero or more decimal digits. -/
def jDigits : List Char → List Char
  | [] => []
  | c :: cs => if '0' ≤ c && c ≤ '9' then jDigits cs else c :: cs

/-- Consume one or more decimal digits. -/
def jDigits1 : List Char → Option (List Char)
  | [] => none
  | c :: cs => if '0' ≤ c && c ≤ '9' then some (jDigits cs) else none

/-- The exponent tail after `e`/`E`: optional sign, one or more digits. -/
def jExpRest (cs : List Char) : Option (List Char) :=
  match cs with
  | '+' :: r => jDigits1 r
  | '-' :: r => jDigits1 r
  | _ => jDigits1 cs

/-- Optional exponent part of a JSON number. -/
def jExp (cs : List Char) : Option (List Char) :=
  match cs with
  | 'e' :: r => jExpRest r
  | 'E' :: r => jExpRest r
  | _ => some cs

/-- Optional fraction part of a JSON number, then the exponent. -/
def jFrac (cs : List Char) : Option (List Char) :=
  match cs with
  | '.' :: r =>
    match jDigits1 r with
    | some r2 => jExp r2
    | none => none
  | _ => jExp cs

/-- A JSON number: optional minus, `0` or a nonzero digit with more digits,
fraction, exponent. -/
def jNum (cs : List Char) : Option (List Char) :=
  let cs1 := match cs with
    | '-' :: r => r
    | _ => cs
  match cs1 with
  | '0' :: r => jFrac r
  | c :: r => if '1' ≤ c && c ≤ '9' then jFrac (jDigits r) else none
  | [] => none

mutual

/-- A JSON value, with fuel. -/
def jVal : Nat → List Char → Option (List Char)
  | 0, _ => none
  | n + 1, cs =>
    match jSkipWs cs with
    | '\x7b' :: cs2 =>
      (match jSkipWs cs2 with
       | '\x7d' :: cs3 => some cs3
       | cs3 => jMem n cs3)
    | '[' :: cs2 =>
      (match jSkipWs cs2 with
       | ']' :: cs3 => some cs3
       | cs3 => jElem n cs3)
    | '"' :: cs2 => jStr (cs2.length + 1) cs2
    | 't' :: 'r' :: 'u' :: 'e' :: cs2 => some cs2
    | 'f' :: 'a' :: 'l' :: 's' :: 'e' :: cs2 => some cs2
    | 'n' :: 'u' :: 'l' :: 'l' :: cs2 => some cs2
    | cs2 => jNum cs2

/-- One or more object members `"key" : value`, separated by commas, up to
the closing brace. -/
def jMem : Nat → List Char → Option (List Char)
  | 0, _ => none
  | n + 1, cs =>
    match cs with
    | '"' :: cs2 =>
      (match jStr (cs2.length + 1) cs2 with
       | some cs3 =>
         (match jSkipWs cs3 with
          | ':' :: cs4 =>
            (match jVal n cs4 with
             | some cs5 =>
               (match jSkipWs cs5 with
                | ',' :: cs6 => jMem n (jSkipWs cs6)
                | '\x7d' :: cs6 => some cs6
                | _ => none)
             | none => none)
          | _ => none)
       | none => none)
    | _ => none

/-- One or more array elements separated by commas, up to the closing
bracket. -/
def jElem : Nat → List Char → Option (List Char)
  | 0, _ => none
  | n + 1, cs =>
    match jVal n cs with
    | some cs2 =>
      (match jSkipWs cs2 with
       | ',' :: cs3 => jElem n cs3
       | ']' :: cs3 => some cs3
       | _ => none)
    | none => none

end

/-- `json.Valid`: a single JSON value with nothing but whitespace after it.
The fuel `s.length + 1` suffices because every recursive call consumes at
least one character. -/
def jsonValid (s : String) : Bool :=
  match jVal (s.length + 1) s.data with
  | some rest => (jSkipWs rest).isEmpty
  | none => false

/-! ## Theorems -/

/-- The loop bodies of `Stream` and `Message` are the same function of the
state, the token, and `dec.More()`: `bw.WriteString`/`bw.Write`/
`bw.WriteRune` emit exactly the bytes `Message` appends to `dst`. -/
theorem stepS_eq_stepM (fset : List String) (re : Option (String → Bool))
    (st : St) (t : Token) (m : Bool) :
    stepS fset re st t m = stepM fset re st t m := by
  cases t <;> rfl

/-- The two loops agree on every token list. -/
theorem runS_eq_runM (fset : List String) (re : Option (String → Bool))
    (toks : List Token) (st : St) :
    runS fset re st toks = runM fset re st toks := by
  induction toks generalizing st with
  | nil => rfl
  | cons t rest ih => simp [runS, runM, stepS_eq_stepM, ih]

/-- Sanity check: the embedding reproduces the repository's `TestMessage`
vector, with `fset = a, b, c` and the pattern `(?i)msg$` (which, on the
keys of this document, holds exactly for `Msg`). -/
theorem message_repo_test :
    Message
      ⟨[Token.opn CKind.obj, Token.str "Msg", Token.str "Hi", Token.str "Obj",
        Token.opn CKind.obj, Token.str "a", Token.num "1", Token.str "c",
        Token.str "C", Token.str "b", Token.null, Token.cls CKind.obj,
        Token.str "Arr", Token.opn CKind.arr, Token.str "a", Token.str "b",
        Token.str "c", Token.cls CKind.arr, Token.str "Null", Token.null,
        Token.str "Num", Token.num "1.234", Token.cls CKind.obj], false⟩
      ["a", "b", "c"] (some fun s => s == "Msg")
      = (some "\x7b\"Msg\": \"********\", \"Obj\": \x7b\"a\": 1, \"c\": \"********\", \"b\": null\x7d, \"Arr\": [\"a\", \"b\", \"c\"], \"Null\": null, \"Num\": 1.234\x7d",
         none) := by
  rfl

/-- Sanity check: the embedding reproduces the repository's
`TestMessageFunc` vector. -/
theorem messageFunc_repo_test :
    MessageFunc
      ⟨[Token.opn CKind.obj, Token.str "Msg", Token.str "Hi", Token.str "Obj",
        Token.opn CKind.obj, Token.str "a", Token.num "1", Token.str "c",
        Token.str "C", Token.str "b", Token.null, Token.cls CKind.obj,
        Token.str "Arr", Token.opn CKind.arr, Token.str "a", Token.str "b",
        Token.str "c", Token.cls CKind.arr, Token.str "Null", Token.null,
        Token.str "Num", Token.num "1.234", Token.cls CKind.obj], false⟩
      (some fun k _ =>
        if k == "Msg" || k == "a" || k == "b" || k == "c" then (Mask, true)
        else ("", false))
      = (some "\x7b\"Msg\": \"********\", \"Obj\": \x7b\"a\": 1, \"c\": \"********\", \"b\": null\x7d, \"Arr\": [\"a\", \"b\", \"c\"], \"Null\": null, \"Num\": 1.234\x7d",
         none) := by
  rfl

/-- Sanity check: the validity checker accepts the repository's expected
output and rejects an unterminated object. -/
theorem jsonValid_sanity :
    jsonValid "\x7b\"Msg\": \"********\", \"Obj\": \x7b\"a\": 1, \"c\": \"********\", \"b\": null\x7d, \"Arr\": [\"a\", \"b\", \"c\"], \"Null\": null, \"Num\": 1.234\x7d" = true
    ∧ jsonValid "[1, 2.5e-3, true, false, null, \"x\\u00e9\"]" = true
    ∧ jsonValid "\x7b\"a\":1" = false := by
  refine ⟨rfl, rfl, rfl⟩

/-- Claim C1 (evaluation at the failing input): on
`\x7b"a": 1, "b": "x"\x7d` with the exact-name set containing only `a`,
`Message` masks the value of the UNMATCHED key `b`.  The `sanitize` flag
set at the matched key `a` is not cleared when the value bound to `a` is a
number, so it fires at the next string value in the document, contradicting
the claim (and the package documentation, which says matched string fields
are the ones replaced). -/
theorem c1_bug_eval :
    Message
      ⟨[Token.opn CKind.obj, Token.str "a", Token.num "1", Token.str "b",
        Token.str "x", Token.cls CKind.obj], false⟩
      ["a"] none
      = (some "\x7b\"a\": 1, \"b\": \"********\"\x7d", none) := by
  rfl

/-- Claim C2 (evaluation at the failing input): on
`\x7b"foo":"foo\u0007bar"\x7d` (the decoded string value carries a BEL
character), with a policy matching nothing, the output re-quotes the value
with `strconv.AppendQuote`, which emits the Go escape `\a`.  That escape is
not in the JSON grammar, so the output is not syntactically valid JSON —
contradicting the claim and the repository's own
`TestMessageEscapedUnicode`. -/
theorem c2_bug_eval :
    Message
      ⟨[Token.opn CKind.obj, Token.str "foo", Token.str "foo\x07bar",
        Token.cls CKind.obj], false⟩
      ["x"] none
      = (some "\x7b\"foo\": \"foo\\abar\"\x7d", none)
    ∧ jsonValid "\x7b\"foo\": \"foo\\abar\"\x7d" = false := by
  refine ⟨rfl, rfl⟩

/-- Claim C3 (counterexample): `Message` on the example document does NOT
return the compact bytes the claim states: the transcoder always writes a
space after `:` and `,` separators. -/
theorem c3_counterexample :
    Message
      ⟨[Token.opn CKind.obj, Token.str "ID", Token.num "42", Token.str "Name",
        Token.str "Zaphod Beeblebrox", Token.str "Secret", Token.str "Trillian",
        Token.cls CKind.obj], false⟩
      ["Name", "Secret"] none
      ≠ (some "\x7b\"ID\":42,\"Name\":\"********\",\"Secret\":\"********\"\x7d",
         none) := by
  decide

/-- Claim C3 (amended): `Message` on the example document with the policy
masking exactly `Name` and `Secret` returns exactly the space-separated
bytes `\x7b"ID": 42, "Name": "********", "Secret": "********"\x7d`, the
output the repository's own example expects. -/
theorem c3_amended :
    Message
      ⟨[Token.opn CKind.obj, Token.str "ID", Token.num "42", Token.str "Name",
        Token.str "Zaphod Beeblebrox", Token.str "Secret", Token.str "Trillian",
        Token.cls CKind.obj], false⟩
      ["Name", "Secret"] none
      = (some "\x7b\"ID\": 42, \"Name\": \"********\", \"Secret\": \"********\"\x7d",
         none) := by
  rfl

/-- Claim C8 (evaluation at the failing input): a first `Message` pass over
`\x7b"k":"\u0007"\x7d` (policy matching nothing) yields bytes containing
the non-JSON escape `\a`, so they are not valid JSON; the tokenizer
therefore rejects them and a second pass returns an error instead of the
first pass's bytes, contradicting idempotence as claimed. -/
theorem c8_bug_eval :
    Message
      ⟨[Token.opn CKind.obj, Token.str "k", Token.str "\x07",
        Token.cls CKind.obj], false⟩
      ["zz"] none
      = (some "\x7b\"k\": \"\\a\"\x7d", none)
    ∧ jsonValid "\x7b\"k\": \"\\a\"\x7d" = false := by
  refine ⟨rfl, rfl⟩

/-- Claim C4: a token is classified as a key exactly when the top of the
container stack is an object and the token counter is odd at the moment the
token is visited (`isKeyPos`, the condition shared verbatim by `Stream` and
`Message`); processing any open or close delimiter resets the counter to
zero and the increment performed after every token then leaves it at `1`,
so the first token after any delimiter is visited with the odd count `1`;
every non-delimiter token leaves the counter at its predecessor plus one.
The final conjunct shows alternation resuming after a nested container
closes: in `\x7b"o": [1], "b": "x"\x7d` the key `b`, visited right after
`]`, is classified as a key and its value is masked. -/
theorem c4_key_classification (fset : List String) (re : Option (String → Bool))
    (st : St) (m : Bool) (k : CKind) (s : String) (b : Bool) (raw : String) :
    isKeyPos st = (decide (st.ds.head? = some CKind.obj) && decide (st.cnt % 2 = 1))
    ∧ (stepM fset re st (Token.opn k) m).1.cnt = 1
    ∧ (stepM fset re st (Token.cls k) m).1.cnt = 1
    ∧ (stepS fset re st (Token.opn k) m).1.cnt = 1
    ∧ (stepS fset re st (Token.cls k) m).1.cnt = 1
    ∧ (stepM fset re st (Token.str s) m).1.cnt = st.cnt + 1
    ∧ (stepM fset re st (Token.bool b) m).1.cnt = st.cnt + 1
    ∧ (stepM fset re st (Token.num raw) m).1.cnt = st.cnt + 1
    ∧ (stepM fset re st Token.null m).1.cnt = st.cnt + 1
    ∧ Message
        ⟨[Token.opn CKind.obj, Token.str "o", Token.opn CKind.arr,
          Token.num "1", Token.cls CKind.arr, Token.str "b", Token.str "x",
          Token.cls CKind.obj], false⟩
        ["b"] none
        = (some "\x7b\"o\": [1], \"b\": \"********\"\x7d", none) := by
  obtain ⟨ds, cnt, san, pd⟩ := st
  refine ⟨?_, ?_, ?_, ?_, ?_, ?_, ?_, ?_, ?_, rfl⟩
  · cases ds with
    | nil => simp [isKeyPos]
    | cons c rest =>
      cases c <;> rcases Nat.mod_two_eq_zero_or_one cnt with h | h <;>
        simp [isKeyPos, h] <;> decide
  all_goals cases m <;> simp [stepM, stepS, finishTok]

/-- Claim C5: non-string immunity.  For every state of the transcoder —
including every state in which the `sanitize` flag is set by a matched
key — a number token is emitted as exactly its original raw text, a bool as
the literal `true`/`false`, and `nil` as `null`, each followed only by the
separator the `dec.More()` branch may add; replacement happens only in the
`string` case of the switch.  The final conjunct runs `Message` on
`\x7b"a": 1, "b": null\x7d` with both keys matched: both values are
unchanged in the output. -/
theorem c5_nonstring_immunity (fset : List String) (re : Option (String → Bool))
    (st : St) (m : Bool) (b : Bool) (raw : String) :
    ((stepM fset re st (Token.num raw) m).2
      = if m then raw ++ sepStr comma else raw)
    ∧ ((stepM fset re st (Token.bool b) m).2
      = if m then (if b then "true" else "false") ++ sepStr comma
        else (if b then "true" else "false"))
    ∧ ((stepM fset re st Token.null m).2
      = if m then "null" ++ sepStr comma else "null")
    ∧ Message
        ⟨[Token.opn CKind.obj, Token.str "a", Token.num "1", Token.str "b",
          Token.null, Token.cls CKind.obj], false⟩
        ["a", "b"] none
        = (some "\x7b\"a\": 1, \"b\": null\x7d", none) := by
  refine ⟨?_, ?_, ?_, rfl⟩ <;> cases m <;> simp [stepM, finishTok]

/-- Claim C6: in `Stream` and `Message`, a key matches exactly when it is a
member of the exact-name set or the supplied pattern matches it (logical
OR, `keyMatches`); and when the flag set by a match fires (a string token
with `sanitize` set and `prevDelim = ':'`), the emitted text is the quoted
fixed constant `Mask = "********"`, whatever string value `s` the input
carried.  The last conjunct records how the flag is set at a key that is
visited in key position. -/
theorem c6_match_and_mask (fset : List String) (re : Option (String → Bool))
    (st : St) (s : String) (m : Bool) :
    Mask = "********"
    ∧ keyMatches fset re s
        = (fset.contains s || (match re with | some p => p s | none => false))
    ∧ (st.sanitize = true → st.prevDelim = colon →
        (stepM fset re st (Token.str s) m).2
          = (if m then goQuote Mask ++ sepStr (if isKeyPos st then colon else comma)
             else goQuote Mask)
        ∧ (stepS fset re st (Token.str s) m).2
          = (if m then goQuote Mask ++ sepStr (if isKeyPos st then colon else comma)
             else goQuote Mask))
    ∧ (st.prevDelim ≠ colon → isKeyPos st = true →
        (stepM fset re st (Token.str s) m).1.sanitize
          = (st.sanitize || keyMatches fset re s)) := by
  refine ⟨rfl, rfl, fun h1 h2 => ?_, fun h1 h2 => ?_⟩
  · constructor <;>
      · cases hm : m <;> cases hk : isKeyPos st <;>
          simp [stepM, stepS, finishTok, h1, h2, hk]
  · have hpd : (st.prevDelim == colon) = false := by
      simp [h1]
    cases hm : m <;> cases hkm : keyMatches fset re s <;>
      simp [stepM, finishTok, hpd, h2, hkm]

/-- Witness for C6, at concrete states: a masked emission (state with the
flag set and `prevDelim = ':'`) and a key-position match of the key `k`
against the set containing `k`. -/
theorem c6_witness :
    (stepM ["k"] none ⟨[], 2, true, colon⟩ (Token.str "secret") false).2
      = (if false then
           goQuote Mask ++ sepStr (if isKeyPos ⟨[], 2, true, colon⟩ then colon else comma)
         else goQuote Mask)
    ∧ (stepM ["k"] none ⟨[CKind.obj], 1, false, comma⟩ (Token.str "k") false).1.sanitize
      = (false || keyMatches ["k"] none "k") :=
  ⟨((c6_match_and_mask ["k"] none ⟨[], 2, true, colon⟩ "secret" false).2.2.1
      rfl rfl).1,
   (c6_match_and_mask ["k"] none ⟨[CKind.obj], 1, false, comma⟩ "k" false).2.2.2
      (by decide) rfl⟩

/-- Claim C7: `Stream` and `Message` return the configuration error — with
no input consumed and no output produced, whatever the token source holds —
exactly when the exact-name set is empty and the pattern is nil, and
`MessageFunc` does likewise when its callback is nil; for every other
combination no configuration error is raised. -/
theorem c7_config_errors (inp : JInput) (fset : List String)
    (re : Option (String → Bool)) (fn : Option (String → String → String × Bool)) :
    Message inp [] none = (none, some JErr.config)
    ∧ Stream inp [] none = ("", some JErr.config)
    ∧ MessageFunc inp none = (none, some JErr.config)
    ∧ (fset ≠ [] ∨ re ≠ none →
        (Message inp fset re).2 ≠ some JErr.config
        ∧ (Stream inp fset re).2 ≠ some JErr.config)
    ∧ (fn ≠ none → (MessageFunc inp fn).2 ≠ some JErr.config) := by
  refine ⟨rfl, rfl, rfl, fun h => ?_, fun h => ?_⟩
  · have hc : (re.isNone && fset.isEmpty) = false := by
      rcases h with h | h
      · have : fset.isEmpty = false := by
          cases hfe : fset.isEmpty
          · rfl
          · exact absurd (List.isEmpty_iff.mp hfe) h
        simp [this]
      · have : re.isNone = false := by
          cases hre : re.isNone
          · rfl
          · exact absurd (Option.isNone_iff_eq_none.mp hre) h
        simp [this]
    cases ht : inp.terr <;> simp [Message, Stream, hc, ht]
  · cases fn with
    | none => exact absurd rfl h
    | some f => cases ht : inp.terr <;> simp [MessageFunc, ht]

/-- Witness for C7: with the non-empty set containing `a` and a nil
pattern, and with a non-nil callback, no configuration error is raised. -/
theorem c7_witness :
    (Message ⟨[], false⟩ ["a"] none).2 ≠ some JErr.config
    ∧ (Stream ⟨[], false⟩ ["a"] none).2 ≠ some JErr.config
    ∧ (MessageFunc ⟨[], false⟩ (some fun _ v => (v, false))).2 ≠ some JErr.config :=
  ⟨((c7_config_errors ⟨[], false⟩ ["a"] none
      (some fun _ v => (v, false))).2.2.2.1 (Or.inl (List.cons_ne_nil _ _))).1,
   ((c7_config_errors ⟨[], false⟩ ["a"] none
      (some fun _ v => (v, false))).2.2.2.1 (Or.inl (List.cons_ne_nil _ _))).2,
   (c7_config_errors ⟨[], false⟩ ["a"] none
      (some fun _ v => (v, false))).2.2.2.2 (Option.some_ne_none _)⟩

/-- Claim C9 (counterexample): on a source whose tokenizer yields `'\x7b'`
and then fails, `Stream`'s sink holds the flushed byte `'\x7b'` while
`Message` returns no bytes at all, so the bytes written by `Stream` are not
the bytes `Message` returns. -/
theorem c9_counterexample :
    ¬ ((Stream ⟨[Token.opn CKind.obj], true⟩ ["a"] none).1
        = (Message ⟨[Token.opn CKind.obj], true⟩ ["a"] none).1.getD "") := by
  decide

/-- Claim C9 (amended): `Stream` and `Message` fail with the same error on
exactly the same inputs, and whenever `Message` succeeds, `Stream` writes
to its sink exactly the bytes `Message` returns.  (On a tokenizer failure
the deferred flush leaves the partial transcoded prefix in `Stream`'s sink,
while `Message` discards its buffer and returns nil.) -/
theorem c9_amended (inp : JInput) (fset : List String)
    (re : Option (String → Bool)) :
    (Stream inp fset re).2 = (Message inp fset re).2
    ∧ ((Message inp fset re).2 = none →
        (Stream inp fset re).1 = (Message inp fset re).1.getD "") := by
  by_cases hc : (re.isNone && fset.isEmpty) = true
  · constructor
    · simp [Stream, Message, hc]
    · intro h
      simp [Message, hc] at h
  · cases ht : inp.terr
    · constructor
      · simp [Stream, Message, hc, ht]
      · intro _
        simp [Stream, Message, hc, ht, runS_eq_runM]
    · constructor
      · simp [Stream, Message, hc, ht]
      · intro h
        simp [Message, hc, ht] at h

/-- Witness for C9: on the well-formed source `\x7b\x7d`, `Message`
succeeds and `Stream` writes exactly the returned bytes. -/
theorem c9_witness :
    (Stream ⟨[Token.opn CKind.obj, Token.cls CKind.obj], false⟩ ["a"] none).1
      = (Message ⟨[Token.opn CKind.obj, Token.cls CKind.obj], false⟩
          ["a"] none).1.getD "" :=
  (c9_amended ⟨[Token.opn CKind.obj, Token.cls CKind.obj], false⟩ ["a"] none).2 rfl

/-- Claim C10: every return of `Message` and of `MessageFunc` is either a
nil byte slice together with a non-nil error (configuration or decode
failure) or a usable byte slice together with a nil error; no call returns
a partially filled buffer alongside an error. -/
theorem c10_error_means_no_bytes (inp : JInput) (fset : List String)
    (re : Option (String → Bool)) (fn : Option (String → String → String × Bool)) :
    ((∃ e, Message inp fset re = (none, some e))
      ∨ (∃ s, Message inp fset re = (some s, none)))
    ∧ ((∃ e, MessageFunc inp fn = (none, some e))
      ∨ (∃ s, MessageFunc inp fn = (some s, none))) := by
  constructor
  · by_cases hc : (re.isNone && fset.isEmpty) = true
    · exact Or.inl ⟨JErr.config, by simp [Message, hc]⟩
    · cases ht : inp.terr
      · exact Or.inr ⟨(runM fset re St.init inp.toks).2, by simp [Message, hc, ht]⟩
      · exact Or.inl ⟨JErr.decode, by simp [Message, hc, ht]⟩
  · cases fn with
    | none => exact Or.inl ⟨JErr.config, rfl⟩
    | some f =>
      cases ht : inp.terr
      · exact Or.inr ⟨(runF f FSt.init inp.toks).2, by simp [MessageFunc, ht]⟩
      · exact Or.inl ⟨JErr.decode, by simp [MessageFunc, ht]⟩

end Sanitize
